import Mathlib

/-!
Verification of the `circuits_simulator` plotting script (`out/plot.py`).

The script reads two text files each holding a bracket-wrapped,
`", "`-separated list of decimal literals, parses them into two numeric
series, asserts that the series have equal length, reads a simulation
duration from `argv[1]`, builds a uniform time axis with
`np.linspace(0, duration, len(tensions1))`, and renders both series
against that axis.

Embedding choices:
- file contents and command-line arguments are `List Char`;
- Python's `str.split(", ")` is `pySplit` (leftmost-match scanning);
- the slice `s[1:-1]` is `stripFirstLast`;
- Python's `float(s)` is `pyFloat`, an exact parser of decimal literals
  (optional sign, digits with optional fractional part, optional
  exponent) into `ℚ`; the model is exact where IEEE floats round, and it
  omits `float`'s tolerance for surrounding whitespace, underscores and
  `inf`/`nan`, none of which the data format uses;
- `np.linspace(0, d, n)` is `buildTimeAxis`;
- the top-level script is `runTrace`, which also records the ordered
  events (file reads, length check, duration parse, render) so that
  ordering properties can be stated.
-/

namespace CircuitsPlot

/-- Python `s[1:-1]`: drop the first and the last character. -/
def stripFirstLast (s : List Char) : List Char :=
  (s.drop 1).dropLast

/-- Prepend a character to the first token of a split result
(the empty-result case never arises: a split is never empty). -/
def consHead (c : Char) : List (List Char) → List (List Char)
  | [] => [[c]]
  | t :: ts => (c :: t) :: ts

/-- Python `s.split(", ")`: scan left to right; each occurrence of the
two-character separator `", "` ends the current token. An empty string
splits to `[""]`, never to `[]`. -/
def pySplit : List Char → List (List Char)
  | [] => [[]]
  | [c] => [[c]]
  | c :: d :: rest =>
    if c = ',' ∧ d = ' ' then [] :: pySplit rest
    else consHead c (pySplit (d :: rest))

/-- Read a maximal run of decimal digits, accumulating value and digit
count; returns (value, count, remaining input). -/
def readDigits : ℕ → ℕ → List Char → ℕ × ℕ × List Char
  | acc, n, [] => (acc, n, [])
  | acc, n, c :: rest =>
    if c.isDigit then readDigits (10 * acc + (c.toNat - 48)) (n + 1) rest
    else (acc, n, c :: rest)

/-- Consume an optional leading sign; returns (isNegative, rest). -/
def takeSign : List Char → Bool × List Char
  | [] => (false, [])
  | c :: r =>
    if c = '-' then (true, r)
    else if c = '+' then (false, r)
    else (false, c :: r)

/-- The exact value of a mantissa with sign, integer part and `fc`
fractional digits of total value `fp`. -/
def mantVal (neg : Bool) (ip fp fc : ℕ) : ℚ :=
  (if neg then -1 else 1) * ((ip : ℚ) + (fp : ℚ) / (10 : ℚ) ^ fc)

/-- The exponent digits after `e`/`E`: an optional sign and at least one
digit, and nothing else, scale `base` by the corresponding power of 10. -/
def pyFloatExpTail (base : ℚ) (r : List Char) : Option ℚ :=
  if (readDigits 0 0 (takeSign r).2).2.1 = 0 then none
  else if (readDigits 0 0 (takeSign r).2).2.2 = ([] : List Char) then
    some (base * (if (takeSign r).1 then
      1 / (10 : ℚ) ^ (readDigits 0 0 (takeSign r).2).1
      else (10 : ℚ) ^ (readDigits 0 0 (takeSign r).2).1))
  else none

/-- After the mantissa: the remaining input must be empty or an
`e`/`E`-led exponent part, and at least one mantissa digit must exist. -/
def pyFloatEnd (neg : Bool) (ip ic fp fc : ℕ) (s3 : List Char) : Option ℚ :=
  if ic = 0 ∧ fc = 0 then none
  else
    match s3 with
    | [] => some (mantVal neg ip fp fc)
    | c :: r =>
      if c = 'e' ∨ c = 'E' then pyFloatExpTail (mantVal neg ip fp fc) r
      else none

/-- After the integer digits: an optional `.`-led run of fractional
digits, then the exponent stage. -/
def pyFloatFrac (neg : Bool) (ip ic : ℕ) (s2 : List Char) : Option ℚ :=
  match s2 with
  | [] => pyFloatEnd neg ip ic 0 0 []
  | c :: r =>
    if c = '.' then
      pyFloatEnd neg ip ic (readDigits 0 0 r).1 (readDigits 0 0 r).2.1
        (readDigits 0 0 r).2.2
    else pyFloatEnd neg ip ic 0 0 (c :: r)

/-- Model of Python `float(s)` on decimal literals, with exact rational
values: `[+-]? (digits [. digits?] | . digits) ([eE] [+-]? digits)?`.
Returns `none` exactly when the token is not such a literal. -/
def pyFloat (s : List Char) : Option ℚ :=
  pyFloatFrac (takeSign s).1 (readDigits 0 0 (takeSign s).2).1
    (readDigits 0 0 (takeSign s).2).2.1 (readDigits 0 0 (takeSign s).2).2.2

/-- Errors of the parsing stage. The script's only failure mode is a
`ValueError` from `float` on a bad token (`badToken`); the spec also
names an `EmptyDataError` (`emptyData`), which is included so that its
absence from the code's behavior can be stated. -/
inductive ParseErr where
  | badToken (t : List Char)
  | emptyData
deriving DecidableEq, Repr

/-- Convert each token with `pyFloat`, failing on the first bad token —
the list comprehension `[float(s) for s in ...]`. -/
def parseTokens : List (List Char) → Except ParseErr (List ℚ)
  | [] => .ok []
  | t :: ts =>
    match pyFloat t with
    | none => .error (.badToken t)
    | some v =>
      match parseTokens ts with
      | .error e => .error e
      | .ok vs => .ok (v :: vs)

/-- The token list of a file content: `content[1:-1].split(", ")`. -/
def seriesTokens (content : List Char) : List (List Char) :=
  pySplit (stripFirstLast content)

/-- `parseSeries`: `[float(s) for s in file.read()[1:-1].split(', ')]`. -/
def parseSeries (content : List Char) : Except ParseErr (List ℚ) :=
  parseTokens (seriesTokens content)

/-- `np.linspace(0, duration, n)`: `n` evenly spaced values from `0` to
`duration`; `[0]` when `n = 1`; `[]` when `n = 0`. -/
def buildTimeAxis (d : ℚ) (n : ℕ) : List ℚ :=
  if n = 1 then [0]
  else (List.range n).map fun (i : ℕ) => d * (i : ℚ) / ((n - 1 : ℕ) : ℚ)

/-- Errors of the whole run. `lengthMismatch` models the failing
`assert len(tensions1) == len(tensions2)`; `invalidDuration` models
`float(argv[1])` failing (or `argv[1]` missing). -/
inductive RunErr where
  | parseFailure (e : ParseErr)
  | lengthMismatch
  | invalidDuration
deriving DecidableEq, Repr

/-- The observable events of a run, in program order. -/
inductive Event where
  | readInput1
  | readInput2
  | lengthCheck
  | durationParse
  | renderPlot
deriving DecidableEq, Repr

/-- The script, top to bottom: read and parse `tensions1.txt`, read and
parse `tensions2.txt`, assert equal lengths, parse `float(argv[1])`,
build the axis `np.linspace(0, duration, len(tensions1))` and render.
Returns the events that happened in order, and either the rendered
triple (axis, series1, series2) or the terminating error. -/
def runTrace (c1 c2 : List Char) (arg : Option (List Char)) :
    List Event × Except RunErr (List ℚ × List ℚ × List ℚ) :=
  match parseSeries c1 with
  | .error e => ([.readInput1], .error (.parseFailure e))
  | .ok t1 =>
    match parseSeries c2 with
    | .error e => ([.readInput1, .readInput2], .error (.parseFailure e))
    | .ok t2 =>
      if t1.length = t2.length then
        match arg.bind pyFloat with
        | none =>
          ([.readInput1, .readInput2, .lengthCheck, .durationParse],
            .error .invalidDuration)
        | some d =>
          ([.readInput1, .readInput2, .lengthCheck, .durationParse, .renderPlot],
            .ok (buildTimeAxis d t1.length, t1, t2))
      else
        ([.readInput1, .readInput2, .lengthCheck], .error .lengthMismatch)

/-- Join tokens with the separator `", "`. -/
def joinComma : List (List Char) → List Char
  | [] => []
  | [t] => t
  | t :: ts => t ++ ',' :: ' ' :: joinComma ts

/-- Serialize a token list as `"[" + ", ".join(tokens) + "]"`. -/
def serializeSeries (ts : List (List Char)) : List Char :=
  '[' :: (joinComma ts ++ [']'])

/-! ### Lemmas about `pySplit` -/

/-- Prepend a whole token to the first token of a split result. -/
def appHead (t : List Char) : List (List Char) → List (List Char)
  | [] => [t]
  | x :: xs => (t ++ x) :: xs

theorem consHead_ne_nil (c : Char) (l : List (List Char)) : consHead c l ≠ [] := by
  cases l <;> simp [consHead]

theorem pySplit_ne_nil (s : List Char) : pySplit s ≠ [] := by
  induction s using pySplit.induct with
  | case1 => simp [pySplit]
  | case2 c => simp [pySplit]
  | case3 c d rest hsep ih => simp [pySplit, hsep, ih]
  | case4 c d rest hsep ih => simpa [pySplit, hsep] using consHead_ne_nil c _

theorem consHead_appHead (c : Char) (t : List Char) (x : List (List Char)) :
    consHead c (appHead t x) = appHead (c :: t) x := by
  cases x <;> rfl

theorem appHead_nil_of_ne (x : List (List Char)) (h : x ≠ []) : appHead [] x = x := by
  cases x with
  | nil => exact absurd rfl h
  | cons a as => simp [appHead]

theorem pySplit_cons_ne (c : Char) (h : c ≠ ',') (l : List Char) :
    pySplit (c :: l) = consHead c (pySplit l) := by
  cases l with
  | nil => simp [pySplit, consHead]
  | cons d r =>
    have : ¬(c = ',' ∧ d = ' ') := fun hc => h hc.1
    simp [pySplit, this]

theorem pySplit_sep (rest : List Char) :
    pySplit (',' :: ' ' :: rest) = [] :: pySplit rest := by
  simp [pySplit]

theorem pySplit_append_no_comma (t rest : List Char) (h : ',' ∉ t) :
    pySplit (t ++ rest) = appHead t (pySplit rest) := by
  induction t with
  | nil =>
    simpa using (appHead_nil_of_ne _ (pySplit_ne_nil rest)).symm
  | cons c t' ih =>
    have hc : c ≠ ',' := fun hc => h (hc ▸ List.mem_cons_self c t')
    have ht' : ',' ∉ t' := fun hm => h (List.mem_cons_of_mem c hm)
    rw [List.cons_append, pySplit_cons_ne c hc, ih ht', consHead_appHead]

theorem pySplit_joinComma_append (ts : List (List Char)) (r : List Char)
    (h : ts ≠ []) (hc : ∀ t ∈ ts, ',' ∉ t) :
    pySplit (joinComma ts ++ r)
      = ts.dropLast ++ appHead (ts.getLast h) (pySplit r) := by
  induction ts with
  | nil => exact absurd rfl h
  | cons t ts' ih =>
    cases ts' with
    | nil =>
      simp only [joinComma, List.dropLast_single, List.getLast_singleton,
        List.nil_append]
      exact pySplit_append_no_comma t r (hc t (List.mem_cons_self t []))
    | cons u us =>
      have hcons : (u :: us : List (List Char)) ≠ [] := by simp
      have hct : ',' ∉ t := hc t (List.mem_cons_self t _)
      have hc' : ∀ x ∈ u :: us, ',' ∉ x := fun x hx => hc x (List.mem_cons_of_mem t hx)
      calc pySplit (joinComma (t :: u :: us) ++ r)
          = pySplit (t ++ (',' :: ' ' :: (joinComma (u :: us) ++ r))) := by
            simp [joinComma]
        _ = appHead t (pySplit (',' :: ' ' :: (joinComma (u :: us) ++ r))) :=
            pySplit_append_no_comma _ _ hct
        _ = appHead t ([] :: pySplit (joinComma (u :: us) ++ r)) := by
            rw [pySplit_sep]
        _ = t :: pySplit (joinComma (u :: us) ++ r) := by simp [appHead]
        _ = t :: ((u :: us).dropLast
              ++ appHead ((u :: us).getLast hcons) (pySplit r)) := by
            rw [ih hcons hc']
        _ = (t :: u :: us).dropLast
              ++ appHead ((t :: u :: us).getLast (by simp)) (pySplit r) := by
            simp [List.dropLast_cons₂, List.getLast_cons hcons]

theorem pySplit_joinComma (ts : List (List Char)) (h : ts ≠ [])
    (hc : ∀ t ∈ ts, ',' ∉ t) : pySplit (joinComma ts) = ts := by
  have := pySplit_joinComma_append ts [] h hc
  rw [List.append_nil] at this
  rw [this]
  show ts.dropLast ++ appHead (ts.getLast h) [[]] = ts
  simp [appHead]
  exact List.dropLast_append_getLast h

/-! ### Lemmas about `pyFloat` : every character of a successfully
parsed token belongs to the float-literal alphabet. -/

/-- The characters that can occur in a decimal float literal. -/
def floatChar (c : Char) : Bool :=
  c.isDigit || c = '+' || c = '-' || c = '.' || c = 'e' || c = 'E'

theorem readDigits_split (s : List Char) : ∀ acc n, ∃ pre,
    s = pre ++ (readDigits acc n s).2.2 ∧ ∀ c ∈ pre, c.isDigit := by
  induction s with
  | nil => intro acc n; exact ⟨[], by simp [readDigits]⟩
  | cons c rest ih =>
    intro acc n
    by_cases hd : c.isDigit
    · obtain ⟨pre, hpre, hdig⟩ := ih (10 * acc + (c.toNat - 48)) (n + 1)
      refine ⟨c :: pre, ?_, ?_⟩
      · simp only [readDigits, hd, if_true, List.cons_append]
        exact congrArg (c :: ·) hpre
      · intro x hx
        rcases List.mem_cons.mp hx with h | h
        · exact h ▸ hd
        · exact hdig x h
    · exact ⟨[], by simp [readDigits, hd]⟩

theorem takeSign_split (s : List Char) : ∃ pre,
    s = pre ++ (takeSign s).2 ∧ ∀ c ∈ pre, c = '-' ∨ c = '+' := by
  cases s with
  | nil => exact ⟨[], by simp [takeSign]⟩
  | cons c r =>
    by_cases hm : c = '-'
    · exact ⟨[c], by simp [takeSign, hm]⟩
    · by_cases hp : c = '+'
      · exact ⟨[c], by simp [takeSign, hm, hp]⟩
      · exact ⟨[], by simp [takeSign, hm, hp]⟩

theorem pyFloatExpTail_chars (base : ℚ) (r : List Char) (v : ℚ)
    (h : pyFloatExpTail base r = some v) : ∀ c ∈ r, floatChar c := by
  unfold pyFloatExpTail at h
  by_cases h1 : (readDigits 0 0 (takeSign r).2).2.1 = 0
  · simp [h1] at h
  · by_cases h2 : (readDigits 0 0 (takeSign r).2).2.2 = ([] : List Char)
    · obtain ⟨pre0, hr0, hsgn⟩ := takeSign_split r
      obtain ⟨pre1, hr1, hdig⟩ := readDigits_split (takeSign r).2 0 0
      rw [h2, List.append_nil] at hr1
      intro c hc
      rw [hr0, hr1] at hc
      rcases List.mem_append.mp hc with h' | h'
      · rcases hsgn c h' with h'' | h'' <;> simp [floatChar, h'']
      · simp [floatChar, hdig c h']
    · simp [h1, h2] at h

theorem pyFloatEnd_chars (neg : Bool) (ip ic fp fc : ℕ) (s3 : List Char) (v : ℚ)
    (h : pyFloatEnd neg ip ic fp fc s3 = some v) : ∀ c ∈ s3, floatChar c := by
  unfold pyFloatEnd at h
  by_cases hz : ic = 0 ∧ fc = 0
  · simp [hz] at h
  · simp only [if_neg hz] at h
    rcases s3 with _ | ⟨c, r⟩
    · intro x hx; simp at hx
    · by_cases he : c = 'e' ∨ c = 'E'
      · simp only [if_pos he] at h
        intro x hx
        rcases List.mem_cons.mp hx with h' | h'
        · rcases he with he | he <;> simp [floatChar, h', he]
        · exact pyFloatExpTail_chars _ r v h x h'
      · simp [he] at h

theorem pyFloatFrac_chars (neg : Bool) (ip ic : ℕ) (s2 : List Char) (v : ℚ)
    (h : pyFloatFrac neg ip ic s2 = some v) : ∀ c ∈ s2, floatChar c := by
  rcases s2 with _ | ⟨c, r⟩
  · intro x hx; simp at hx
  · by_cases hdot : c = '.'
    · simp only [pyFloatFrac, if_pos hdot] at h
      obtain ⟨pre2, hr2, hdig⟩ := readDigits_split r 0 0
      intro x hx
      rcases List.mem_cons.mp hx with h' | h'
      · simp [floatChar, h', hdot]
      · rw [hr2] at h'
        rcases List.mem_append.mp h' with h' | h'
        · simp [floatChar, hdig x h']
        · exact pyFloatEnd_chars _ _ _ _ _ _ v h x h'
    · simp only [pyFloatFrac, if_neg hdot] at h
      exact pyFloatEnd_chars _ _ _ _ _ _ v h

theorem pyFloat_chars (s : List Char) (v : ℚ) (h : pyFloat s = some v) :
    ∀ c ∈ s, floatChar c := by
  unfold pyFloat at h
  obtain ⟨pre0, hs0, hsgn⟩ := takeSign_split s
  obtain ⟨pre1, hs1, hdig1⟩ := readDigits_split (takeSign s).2 0 0
  intro c hc
  rw [hs0, hs1] at hc
  rcases List.mem_append.mp hc with h0 | h1
  · rcases hsgn c h0 with h' | h' <;> simp [floatChar, h']
  · rcases List.mem_append.mp h1 with h1 | h2
    · simp [floatChar, hdig1 c h1]
    · exact pyFloatFrac_chars _ _ _ _ v h c h2

theorem pyFloat_no_comma (t : List Char) (v : ℚ) (h : pyFloat t = some v) :
    ',' ∉ t := by
  intro hm
  have := pyFloat_chars t v h ',' hm
  simp [floatChar] at this

theorem pyFloat_concat_bracket (t : List Char) :
    pyFloat (t ++ [']']) = none := by
  rcases hf : pyFloat (t ++ [']']) with _ | v
  · rfl
  · have := pyFloat_chars _ v hf ']' (by simp)
    simp [floatChar] at this

/-! ### Lemmas about `parseTokens` -/

theorem parseTokens_ok_of_forall (ts : List (List Char))
    (h : ∀ t ∈ ts, (pyFloat t).isSome) :
    parseTokens ts = .ok (ts.filterMap pyFloat) := by
  induction ts with
  | nil => rfl
  | cons t ts' ih =>
    have ht : (pyFloat t).isSome := h t (List.mem_cons_self t ts')
    obtain ⟨v, hv⟩ := Option.isSome_iff_exists.mp ht
    have ih' := ih fun x hx => h x (List.mem_cons_of_mem t hx)
    simp [parseTokens, hv, ih', List.filterMap_cons]

theorem length_filterMap_of_forall (ts : List (List Char))
    (h : ∀ t ∈ ts, (pyFloat t).isSome) :
    (ts.filterMap pyFloat).length = ts.length := by
  induction ts with
  | nil => rfl
  | cons t ts' ih =>
    have ht : (pyFloat t).isSome := h t (List.mem_cons_self t ts')
    obtain ⟨v, hv⟩ := Option.isSome_iff_exists.mp ht
    have ih' := ih fun x hx => h x (List.mem_cons_of_mem t hx)
    simp [List.filterMap_cons, hv, ih']

theorem parseTokens_error_of_mem (ts : List (List Char)) (t0 : List Char)
    (hmem : t0 ∈ ts) (hbad : pyFloat t0 = none) :
    ∃ t, parseTokens ts = .error (.badToken t) := by
  induction ts with
  | nil => simp at hmem
  | cons t ts' ih =>
    rcases hf : pyFloat t with _ | v
    · exact ⟨t, by simp [parseTokens, hf]⟩
    · have hmem' : t0 ∈ ts' := by
        rcases List.mem_cons.mp hmem with h' | h'
        · rw [h'] at hbad; rw [hbad] at hf; cases hf
        · exact h'
      obtain ⟨t', ht'⟩ := ih hmem'
      exact ⟨t', by simp [parseTokens, hf, ht']⟩

theorem parseTokens_error_badToken (ts : List (List Char)) :
    ∀ e, parseTokens ts = .error e → ∃ t, e = .badToken t := by
  induction ts with
  | nil => intro e h; cases h
  | cons t ts' ih =>
    intro e h
    rcases hf : pyFloat t with _ | v
    · simp [parseTokens, hf] at h
      exact ⟨t, h.symm⟩
    · rcases he : parseTokens ts' with e' | vs
      · rw [parseTokens, hf, he] at h
        injection h with h2
        subst h2
        exact ih e' he
      · rw [parseTokens, hf, he] at h
        cases h

theorem parseTokens_ne_ok_of_error (ts : List (List Char)) (e : ParseErr)
    (h : parseTokens ts = .error e) : ∀ xs, parseTokens ts ≠ .ok xs := by
  intro xs hxs
  rw [h] at hxs
  cases hxs

/-! ### Lemmas about `buildTimeAxis` -/

theorem length_buildTimeAxis (d : ℚ) (n : ℕ) : (buildTimeAxis d n).length = n := by
  unfold buildTimeAxis
  by_cases h : n = 1
  · simp [h]
  · rw [if_neg h, List.length_map, List.length_range]

theorem buildTimeAxis_getD (d : ℚ) (n i : ℕ) (hn : n ≠ 1) (hi : i < n) :
    (buildTimeAxis d n).getD i 0 = d * (i : ℚ) / ((n - 1 : ℕ) : ℚ) := by
  unfold buildTimeAxis
  rw [if_neg hn, List.getD_eq_getElem?_getD, List.getElem?_map,
    List.getElem?_range hi]
  rfl

/-! ### Claim theorems -/

/-- C1: for every readable input file, `parseSeries` strips the first
and last character of the text, splits the remainder on `", "`
(definitions `stripFirstLast`, `seriesTokens`), converts every
resulting token to a numeric value, and returns a series whose length
equals the number of tokens produced by the split. -/
theorem parseSeries_ok_C1 (s : List Char)
    (h : ∀ t ∈ seriesTokens s, (pyFloat t).isSome) :
    parseSeries s = .ok ((seriesTokens s).filterMap pyFloat) ∧
    ((seriesTokens s).filterMap pyFloat).length = (seriesTokens s).length :=
  ⟨parseTokens_ok_of_forall _ h, length_filterMap_of_forall _ h⟩

/-- C1 witness at the file content `"[1.0, 2.5]"`. -/
theorem parseSeries_ok_C1_witness :
    (∀ t ∈ seriesTokens "[1.0, 2.5]".toList, (pyFloat t).isSome) ∧
    (parseSeries "[1.0, 2.5]".toList
        = .ok ((seriesTokens "[1.0, 2.5]".toList).filterMap pyFloat) ∧
      ((seriesTokens "[1.0, 2.5]".toList).filterMap pyFloat).length
        = (seriesTokens "[1.0, 2.5]".toList).length) :=
  ⟨by decide, parseSeries_ok_C1 _ (by decide)⟩

/-- C2: for `duration > 0` and `sampleCount ≥ 2`, `buildTimeAxis`
returns `sampleCount` values starting at `0`, ending at `duration`,
with uniform consecutive step `duration / (sampleCount - 1)`. -/
theorem buildTimeAxis_uniform_C2 (d : ℚ) (n : ℕ) (_hd : 0 < d) (hn : 2 ≤ n) :
    (buildTimeAxis d n).length = n ∧
    (buildTimeAxis d n).getD 0 0 = 0 ∧
    (buildTimeAxis d n).getD (n - 1) 0 = d ∧
    ∀ i, i + 1 < n →
      (buildTimeAxis d n).getD (i + 1) 0 - (buildTimeAxis d n).getD i 0
        = d / ((n - 1 : ℕ) : ℚ) := by
  have hn1 : n ≠ 1 := by omega
  have hm : ((n - 1 : ℕ) : ℚ) ≠ 0 := Nat.cast_ne_zero.mpr (by omega)
  refine ⟨length_buildTimeAxis d n, ?_, ?_, ?_⟩
  · rw [buildTimeAxis_getD d n 0 hn1 (by omega)]
    simp
  · rw [buildTimeAxis_getD d n (n - 1) hn1 (by omega)]
    rw [mul_div_assoc, div_self hm, mul_one]
  · intro i hi
    rw [buildTimeAxis_getD d n (i + 1) hn1 hi,
      buildTimeAxis_getD d n i hn1 (by omega), div_sub_div_same]
    congr 1
    push_cast
    ring

/-- C2 witness at `duration = 2`, `sampleCount = 3`. -/
theorem buildTimeAxis_uniform_C2_witness :
    (0 : ℚ) < 2 ∧ 2 ≤ 3 ∧
    ((buildTimeAxis 2 3).length = 3 ∧
      (buildTimeAxis 2 3).getD 0 0 = 0 ∧
      (buildTimeAxis 2 3).getD (3 - 1) 0 = 2 ∧
      ∀ i, i + 1 < 3 →
        (buildTimeAxis 2 3).getD (i + 1) 0 - (buildTimeAxis 2 3).getD i 0
          = 2 / ((3 - 1 : ℕ) : ℚ)) :=
  ⟨by decide, by decide, buildTimeAxis_uniform_C2 2 3 (by decide) (by decide)⟩

/-- C4: round-trip — serializing any non-empty list of tokens that
`pyFloat` accepts as `"[" + ", ".join(tokens) + "]"` and parsing the
result with `parseSeries` reproduces exactly the values of the tokens. -/
theorem parseSeries_roundTrip_C4 (ts : List (List Char)) (hne : ts ≠ [])
    (h : ∀ t ∈ ts, (pyFloat t).isSome) :
    parseSeries (serializeSeries ts) = .ok (ts.filterMap pyFloat) := by
  have hc : ∀ t ∈ ts, ',' ∉ t := by
    intro t ht
    obtain ⟨v, hv⟩ := Option.isSome_iff_exists.mp (h t ht)
    exact pyFloat_no_comma t v hv
  have hstrip : stripFirstLast (serializeSeries ts) = joinComma ts := by
    unfold serializeSeries stripFirstLast
    simp [List.dropLast_concat]
  have htok : seriesTokens (serializeSeries ts) = ts := by
    unfold seriesTokens
    rw [hstrip, pySplit_joinComma ts hne hc]
  unfold parseSeries
  rw [htok]
  exact parseTokens_ok_of_forall ts h

/-- C4 witness at the value list rendered as `["1.0", "2.5"]`. -/
theorem parseSeries_roundTrip_C4_witness :
    (["1.0".toList, "2.5".toList] ≠ ([] : List (List Char))) ∧
    (∀ t ∈ ["1.0".toList, "2.5".toList], (pyFloat t).isSome) ∧
    parseSeries (serializeSeries ["1.0".toList, "2.5".toList])
      = .ok (["1.0".toList, "2.5".toList].filterMap pyFloat) :=
  ⟨by decide, by decide, parseSeries_roundTrip_C4 _ (by decide) (by decide)⟩

/-- C5: whenever the split yields a token that `pyFloat` rejects,
`parseSeries` fails with a bad-token `ParseError` and returns no
sequence, partial or otherwise. -/
theorem parseSeries_badToken_C5 (s : List Char)
    (h : ∃ t ∈ seriesTokens s, pyFloat t = none) :
    (∃ t, parseSeries s = .error (.badToken t)) ∧
    ∀ xs, parseSeries s ≠ .ok xs := by
  obtain ⟨t0, hmem, hbad⟩ := h
  obtain ⟨t, ht⟩ := parseTokens_error_of_mem _ t0 hmem hbad
  exact ⟨⟨t, ht⟩, parseTokens_ne_ok_of_error _ _ ht⟩

/-- C5 witness at the file content `"[1.0, abc, 3.0]"`. -/
theorem parseSeries_badToken_C5_witness :
    (∃ t ∈ seriesTokens "[1.0, abc, 3.0]".toList, pyFloat t = none) ∧
    ((∃ t, parseSeries "[1.0, abc, 3.0]".toList = .error (.badToken t)) ∧
      ∀ xs, parseSeries "[1.0, abc, 3.0]".toList ≠ .ok xs) :=
  ⟨by decide, parseSeries_badToken_C5 _ (by decide)⟩

/-- C8: `buildTimeAxis d 1 = [0]` for every duration `d`. -/
theorem buildTimeAxis_single_C8 (d : ℚ) : buildTimeAxis d 1 = [0] := by
  simp [buildTimeAxis]

/-- C9: a well-formed bracket-wrapped list followed by a trailing
newline fails to parse: the stripping removes the newline instead of
the closing bracket, so the final token ends in `]` and is rejected. -/
theorem parseSeries_trailingNewline_C9 (ts : List (List Char)) (hne : ts ≠ [])
    (h : ∀ t ∈ ts, (pyFloat t).isSome) :
    (∃ t, parseSeries (serializeSeries ts ++ ['\n']) = .error (.badToken t)) ∧
    ∀ xs, parseSeries (serializeSeries ts ++ ['\n']) ≠ .ok xs := by
  have hc : ∀ t ∈ ts, ',' ∉ t := by
    intro t ht
    obtain ⟨v, hv⟩ := Option.isSome_iff_exists.mp (h t ht)
    exact pyFloat_no_comma t v hv
  have hstrip : stripFirstLast (serializeSeries ts ++ ['\n'])
      = joinComma ts ++ [']'] := by
    unfold serializeSeries stripFirstLast
    simp [List.dropLast_concat]
  have htok : seriesTokens (serializeSeries ts ++ ['\n'])
      = ts.dropLast ++ [ts.getLast hne ++ [']']] := by
    unfold seriesTokens
    rw [hstrip, pySplit_joinComma_append ts [']'] hne hc]
    rfl
  have hmem : ts.getLast hne ++ [']']
      ∈ seriesTokens (serializeSeries ts ++ ['\n']) := by
    rw [htok]
    exact List.mem_append_right _ (List.mem_singleton.mpr rfl)
  obtain ⟨t, ht⟩ := parseTokens_error_of_mem _ _ hmem
    (pyFloat_concat_bracket (ts.getLast hne))
  exact ⟨⟨t, ht⟩, parseTokens_ne_ok_of_error _ _ ht⟩

/-- C9 witness at the file content `"[1.0, 2.0]\n"`. -/
theorem parseSeries_trailingNewline_C9_witness :
    (["1.0".toList, "2.0".toList] ≠ ([] : List (List Char))) ∧
    (∀ t ∈ ["1.0".toList, "2.0".toList], (pyFloat t).isSome) ∧
    ((∃ t, parseSeries (serializeSeries ["1.0".toList, "2.0".toList] ++ ['\n'])
        = .error (.badToken t)) ∧
      ∀ xs, parseSeries (serializeSeries ["1.0".toList, "2.0".toList] ++ ['\n'])
        ≠ .ok xs) :=
  ⟨by decide, by decide, parseSeries_trailingNewline_C9 _ (by decide) (by decide)⟩

/-- C3: when both series parse but their lengths differ, the run fails
at the length check (the failing `assert`) and the render event never
occurs: nothing is rendered. -/
theorem runTrace_lengthMismatch_C3 (c1 c2 : List Char) (arg : Option (List Char))
    (t1 t2 : List ℚ) (h1 : parseSeries c1 = .ok t1) (h2 : parseSeries c2 = .ok t2)
    (hne : t1.length ≠ t2.length) :
    runTrace c1 c2 arg
      = ([.readInput1, .readInput2, .lengthCheck], .error .lengthMismatch) ∧
    Event.renderPlot ∉ (runTrace c1 c2 arg).1 := by
  have hrun : runTrace c1 c2 arg
      = ([.readInput1, .readInput2, .lengthCheck], .error .lengthMismatch) := by
    unfold runTrace
    rw [h1, h2]
    simp [hne]
  refine ⟨hrun, ?_⟩
  rw [hrun]
  decide

/-- C3 witness: series of length 5 and 6, duration argument `"1.0"`. -/
theorem runTrace_lengthMismatch_C3_witness : ∃ t1 t2 : List ℚ,
    parseSeries "[1.0, 2.0, 3.0, 4.0, 5.0]".toList = .ok t1 ∧
    parseSeries "[1.0, 2.0, 3.0, 4.0, 5.0, 6.0]".toList = .ok t2 ∧
    t1.length ≠ t2.length ∧
    (runTrace "[1.0, 2.0, 3.0, 4.0, 5.0]".toList
        "[1.0, 2.0, 3.0, 4.0, 5.0, 6.0]".toList (some "1.0".toList)
      = ([.readInput1, .readInput2, .lengthCheck], .error .lengthMismatch) ∧
    Event.renderPlot ∉ (runTrace "[1.0, 2.0, 3.0, 4.0, 5.0]".toList
        "[1.0, 2.0, 3.0, 4.0, 5.0, 6.0]".toList (some "1.0".toList)).1) :=
  ⟨_, _, rfl, rfl, by decide,
    runTrace_lengthMismatch_C3 _ _ _ _ _ rfl rfl (by decide)⟩

/-- C6 counterexample: with readable one-element input files and the
malformed duration argument `"abc"`, the run does read both input files
— the duration error is raised only afterwards, so the claim that the
process terminates before any input-file read is false. -/
theorem runTrace_badDuration_C6_counterexample :
    runTrace "[1.0]".toList "[2.0]".toList (some "abc".toList)
      = ([.readInput1, .readInput2, .lengthCheck, .durationParse],
          .error .invalidDuration) ∧
    Event.readInput1
      ∈ (runTrace "[1.0]".toList "[2.0]".toList (some "abc".toList)).1 ∧
    Event.readInput2
      ∈ (runTrace "[1.0]".toList "[2.0]".toList (some "abc".toList)).1 :=
  ⟨rfl, by decide, by decide⟩

/-- C6 amended: a missing or malformed duration argument is fatal, but
it is detected only after both input files have been read and parsed
and the length check has passed; the run then terminates with the
duration error and nothing is rendered. -/
theorem runTrace_badDuration_C6 (c1 c2 : List Char) (arg : Option (List Char))
    (t1 t2 : List ℚ) (h1 : parseSeries c1 = .ok t1) (h2 : parseSeries c2 = .ok t2)
    (hlen : t1.length = t2.length) (hd : arg.bind pyFloat = none) :
    runTrace c1 c2 arg
      = ([.readInput1, .readInput2, .lengthCheck, .durationParse],
          .error .invalidDuration) ∧
    Event.renderPlot ∉ (runTrace c1 c2 arg).1 := by
  have hrun : runTrace c1 c2 arg
      = ([.readInput1, .readInput2, .lengthCheck, .durationParse],
          .error .invalidDuration) := by
    unfold runTrace
    rw [h1, h2]
    simp [hlen, hd]
  refine ⟨hrun, ?_⟩
  rw [hrun]
  decide

/-- C6 amended witness: files `"[1.0]"`, `"[2.0]"`, argument `"abc"`. -/
theorem runTrace_badDuration_C6_witness : ∃ t1 t2 : List ℚ,
    parseSeries "[1.0]".toList = .ok t1 ∧
    parseSeries "[2.0]".toList = .ok t2 ∧
    t1.length = t2.length ∧
    (some "abc".toList).bind pyFloat = none ∧
    (runTrace "[1.0]".toList "[2.0]".toList (some "abc".toList)
      = ([.readInput1, .readInput2, .lengthCheck, .durationParse],
          .error .invalidDuration) ∧
    Event.renderPlot
      ∉ (runTrace "[1.0]".toList "[2.0]".toList (some "abc".toList)).1) :=
  ⟨_, _, rfl, rfl, by decide, by decide,
    runTrace_badDuration_C6 _ _ _ _ _ rfl rfl (by decide) (by decide)⟩

/-- C7 counterexample: at the zero-data file `"[]"`, the split yields
the single empty token `[""]` — never zero tokens — and `parseSeries`
fails with an ordinary bad-token `ParseError`, not with the distinct
`EmptyDataError` the claim describes. -/
theorem parseSeries_emptyData_C7_counterexample :
    seriesTokens "[]".toList = [[]] ∧
    parseSeries "[]".toList = .error (.badToken []) ∧
    ParseErr.badToken [] ≠ ParseErr.emptyData :=
  ⟨rfl, rfl, by decide⟩

/-- C7 amended: the token list produced by the split is never empty
(splitting on a non-empty separator yields at least one, possibly
empty, token), so the zero-token condition cannot arise; every parse
failure, including on a file with no numeric data, is an ordinary
bad-token `ParseError`, never an `EmptyDataError`, and the run aborts
before the axis computation on such input. -/
theorem parseSeries_noEmptyData_C7 (s : List Char) :
    seriesTokens s ≠ [] ∧
    ∀ e, parseSeries s = .error e → ∃ t, e = .badToken t :=
  ⟨pySplit_ne_nil _, fun e h => parseTokens_error_badToken _ e h⟩

/-- C7 amended witness at the file content `"[]"`. -/
theorem parseSeries_noEmptyData_C7_witness :
    seriesTokens "[]".toList ≠ [] ∧
    ∃ t, ParseErr.badToken [] = ParseErr.badToken t :=
  ⟨(parseSeries_noEmptyData_C7 "[]".toList).1,
    (parseSeries_noEmptyData_C7 "[]".toList).2 _ rfl⟩

/-- C10: the axis is built with length `len(tensions1)`, so whenever
the run reaches rendering, the axis and the two series all have the
same length — the render precondition holds with no separate check. -/
theorem runTrace_rendered_lengths_C10 (c1 c2 : List Char)
    (arg : Option (List Char)) (t s1 s2 : List ℚ)
    (h : (runTrace c1 c2 arg).2 = .ok (t, s1, s2)) :
    t.length = s1.length ∧ s1.length = s2.length := by
  unfold runTrace at h
  rcases hp1 : parseSeries c1 with e1 | t1
  · simp [hp1] at h
  · rcases hp2 : parseSeries c2 with e2 | t2
    · simp [hp1, hp2] at h
    · by_cases hlen : t1.length = t2.length
      · rcases hdur : arg.bind pyFloat with _ | d
        · simp [hp1, hp2, if_pos hlen, hdur] at h
        · simp only [hp1, hp2] at h
          rw [if_pos hlen] at h
          simp only [hdur] at h
          injection h with h'
          cases h'
          exact ⟨length_buildTimeAxis _ _, hlen⟩
      · simp [hp1, hp2, if_neg hlen] at h

/-- C10 witness: a successful three-stage run on two two-element files. -/
theorem runTrace_rendered_lengths_C10_witness : ∃ t s1 s2 : List ℚ,
    (runTrace "[1.0, 2.0]".toList "[3.0, 4.0]".toList (some "2.0".toList)).2
      = .ok (t, s1, s2) ∧
    t.length = s1.length ∧ s1.length = s2.length :=
  ⟨_, _, _, rfl, runTrace_rendered_lengths_C10 "[1.0, 2.0]".toList
    "[3.0, 4.0]".toList (some "2.0".toList) _ _ _ rfl⟩

end CircuitsPlot
